import Mathlib

/-
Verification of the TimeSync appointment scheduler core.

The stateful TypeScript code is embedded with explicit state passing: the
stored appointment collection (held in localStorage by the source) is a
List Appointment parameter, and JavaScript Date values are their numeric
time values (milliseconds since the epoch) as Int. Fallible operations
return Except or Option.
-/

/-- Role of the current user, the source union type owner | colleague from types.ts. -/
inductive Role where
  | owner
  | colleague
  deriving DecidableEq, Repr

/-- The appointment type union from types.ts: meeting | block | personal | availability. -/
inductive AppointmentType where
  | meeting
  | block
  | personal
  | availability
  deriving DecidableEq, Repr

/-- The Appointment interface from types.ts. The source field end is named endTime
here because end is reserved in Lean; start and endTime are Date values modeled as
millisecond time values. -/
structure Appointment where
  id : String
  title : String
  start : Int
  endTime : Int
  requesterName : String
  description : Option String := none
  type : AppointmentType
  deriving DecidableEq, Repr

/-- The half-open overlap test inlined in checkAvailability of storageService:
checkStart < aptEnd AND checkEnd > aptStart, on numeric time values. -/
def overlaps (checkStart checkEnd aptStart aptEnd : Int) : Bool :=
  decide (checkStart < aptEnd) && decide (checkEnd > aptStart)

/-- The guard excludeId AND apt.id === excludeId from checkAvailability. JavaScript
truthiness makes an absent or empty excludeId falsy, so exclusion applies only when
excludeId is present, nonempty and equal to the appointment id. -/
def matchesExclude (excludeId : Option String) (aptId : String) : Bool :=
  match excludeId with
  | none => false
  | some e => !(e == "") && (aptId == e)

/-- checkAvailability from storageService, with the stored collection passed
explicitly (the source reads it through getAppointments). Returns true when no
non-excluded stored appointment overlaps the candidate range. -/
def checkAvailability (current : List Appointment) (start endT : Int)
    (excludeId : Option String) : Bool :=
  !(current.any fun apt =>
    if matchesExclude excludeId apt.id then false
    else overlaps start endT apt.start apt.endTime)

/-- saveAppointment from storageService: find an existing record with the same id;
replace it in place when found, append otherwise. The source persists the updated
collection and returns it; List.findIdx returns the length when nothing matches,
mirroring the findIndex index >= 0 test. -/
def saveAppointment (current : List Appointment) (appointment : Appointment) :
    List Appointment :=
  let index := current.findIdx fun a => a.id == appointment.id
  if index < current.length then current.set index appointment
  else current ++ [appointment]

/-- The error cases surfaced by setError in handleSubmit of BookingModal. -/
inductive SubmitError where
  | fieldsRequired
  | pastSlot
  | overlapError
  deriving DecidableEq, Repr

/-- The isBookingOpenSlot flag of BookingModal: existingAppointment?.type === availability. -/
def isBookingOpenSlot (existingAppointment : Option Appointment) : Bool :=
  match existingAppointment with
  | some a => a.type == AppointmentType.availability
  | none => false

/-- handleSubmit from BookingModal. The date and time input fields are represented
together by the time value they denote: dateTime = none models an empty date or
time field (caught by the all-fields-required check, as the empty string is falsy),
dateTime = some t models new Date of the combined field text. The fresh id drawn
from crypto.randomUUID for a new appointment is the freshId parameter. On each
error path the source sets an error message and returns before any write; on the
success path it writes through saveAppointment. -/
def handleSubmit (current : List Appointment) (now : Int) (currentUserRole : Role)
    (existingAppointment : Option Appointment) (freshId : String)
    (title name : String) (dateTime : Option Int) (duration : Int) :
    Except SubmitError (List Appointment) :=
  match dateTime with
  | none => Except.error SubmitError.fieldsRequired
  | some startDateTime =>
    if title == "" || name == "" then Except.error SubmitError.fieldsRequired
    else
      let endDateTime := startDateTime + duration * 60000
      if startDateTime < now then Except.error SubmitError.pastSlot
      else if !(checkAvailability current startDateTime endDateTime
            (existingAppointment.map fun a => a.id)) then
        Except.error SubmitError.overlapError
      else
        let type :=
          if currentUserRole == Role.owner && existingAppointment.isNone then
            AppointmentType.availability
          else if currentUserRole == Role.colleague
              && isBookingOpenSlot existingAppointment then
            AppointmentType.meeting
          else AppointmentType.meeting
        let appointment : Appointment :=
          { id := match existingAppointment with
                  | some a => a.id
                  | none => freshId
            title := title
            start := startDateTime
            endTime := endDateTime
            requesterName := name
            type := type }
        Except.ok (saveAppointment current appointment)

/-- The stored collection as left by a submit: unchanged on every error path (the
source returns before any write), the saveAppointment result on success. -/
def submitStore (current : List Appointment) (now : Int) (currentUserRole : Role)
    (existingAppointment : Option Appointment) (freshId : String)
    (title name : String) (dateTime : Option Int) (duration : Int) :
    List Appointment :=
  match handleSubmit current now currentUserRole existingAppointment freshId
      title name dateTime duration with
  | Except.ok updated => updated
  | Except.error _ => current

/-- The appointment value handleSubmit constructs on its success path, named for use
in theorem statements. -/
def builtAppointment (currentUserRole : Role) (existingAppointment : Option Appointment)
    (freshId title name : String) (startDateTime duration : Int) : Appointment :=
  { id := match existingAppointment with
          | some a => a.id
          | none => freshId
    title := title
    start := startDateTime
    endTime := startDateTime + duration * 60000
    requesterName := name
    type :=
      if currentUserRole == Role.owner && existingAppointment.isNone then
        AppointmentType.availability
      else if currentUserRole == Role.colleague
          && isBookingOpenSlot existingAppointment then
        AppointmentType.meeting
      else AppointmentType.meeting }

/-- The meeting a colleague booking an availability record constructs: same id (so
the write replaces), the booked cell start, and the chosen duration. For use in
theorem statements. -/
def bookedMeeting (A : Appointment) (title name : String) (duration : Int) :
    Appointment :=
  { id := A.id, title := title, start := A.start,
    endTime := A.start + duration * 60000,
    requesterName := name, type := AppointmentType.meeting }

/-! Platform model: JavaScript Date and JSON, as used by serialize, deserialize and
getAppointments of storageService. Date arithmetic follows the ECMA-262 operations
(Day, DayFromYear, YearFromTime, MonthFromTime, DateFromTime, MakeDay, MakeTime,
MakeDate); the model uses one uniform clock, time zones being out of scope. -/

/-- ECMA-262 DayFromYear. Integer division here is floor division (the divisors are
positive). -/
def dayFromYear (y : Int) : Int :=
  365 * (y - 1970) + (y - 1969) / 4 - (y - 1901) / 100 + (y - 1601) / 400

/-- The ECMA-262 leap-year rule (DaysInYear 366 case). -/
def isLeapYear (y : Int) : Bool :=
  (y % 4 == 0 && !(y % 100 == 0)) || y % 400 == 0

/-- ECMA-262 InLeapYear as a day count. -/
def inLeapDays (y : Int) : Int := if isLeapYear y then 1 else 0

/-- Upward walk computing ECMA-262 YearFromTime: the largest year whose first day is
at most the given day number. -/
def yearFromDayAux : Nat → Int → Int → Int
  | 0, y, _ => y
  | fuel + 1, y, d =>
    if dayFromYear (y + 1) ≤ d then yearFromDayAux fuel (y + 1) d else y

/-- ECMA-262 YearFromTime on a day number, started from a lower-bound estimate; 64
steps of walk always suffice on the supported range. -/
def yearFromDay (d : Int) : Int :=
  yearFromDayAux 64 (1969 + (if d < 0 then d / 365 else d / 366)) d

/-- ECMA-262 MonthFromTime boundaries on the day within the year (month 0-based). -/
def monthFromDoy (ilp doy : Int) : Int :=
  if doy < 31 then 0
  else if doy < 59 + ilp then 1
  else if doy < 90 + ilp then 2
  else if doy < 120 + ilp then 3
  else if doy < 151 + ilp then 4
  else if doy < 181 + ilp then 5
  else if doy < 212 + ilp then 6
  else if doy < 243 + ilp then 7
  else if doy < 273 + ilp then 8
  else if doy < 304 + ilp then 9
  else if doy < 334 + ilp then 10
  else 11

/-- First day-within-year of each 0-based month, per the ECMA-262 DateFromTime
cumulative day counts. -/
def monthStart (ilp m : Int) : Int :=
  if m ≤ 0 then 0
  else if m = 1 then 31
  else if m = 2 then 59 + ilp
  else if m = 3 then 90 + ilp
  else if m = 4 then 120 + ilp
  else if m = 5 then 151 + ilp
  else if m = 6 then 181 + ilp
  else if m = 7 then 212 + ilp
  else if m = 8 then 243 + ilp
  else if m = 9 then 273 + ilp
  else if m = 10 then 304 + ilp
  else 334 + ilp

/-- The calendar components of a time value (month and day 1-based, as rendered by
toISOString). -/
structure DateComponents where
  year : Int
  month : Int
  day : Int
  hour : Int
  minute : Int
  second : Int
  milli : Int
  deriving DecidableEq, Repr

/-- ECMA-262 Day. -/
def dayNumber (t : Int) : Int := t / 86400000

/-- Decomposition of a time value into calendar components per ECMA-262: Day,
YearFromTime, DayWithinYear, MonthFromTime, DateFromTime, HourFromTime, MinFromTime,
SecFromTime and msFromTime. -/
def dateComponentsFromTime (t : Int) : DateComponents :=
  let d := dayNumber t
  let y := yearFromDay d
  let doy := d - dayFromYear y
  let m := monthFromDoy (inLeapDays y) doy
  { year := y
    month := m + 1
    day := doy - monthStart (inLeapDays y) m + 1
    hour := t / 3600000 % 24
    minute := t / 60000 % 60
    second := t / 1000 % 60
    milli := t % 1000 }

/-- ECMA-262 MakeTime. -/
def makeTime (hour minute second milli : Int) : Int :=
  hour * 3600000 + minute * 60000 + second * 1000 + milli

/-- ECMA-262 MakeDay, on a 1-based month. -/
def makeDay (year month day : Int) : Int :=
  dayFromYear year + monthStart (inLeapDays year) (month - 1) + day - 1

/-- ECMA-262 MakeDate. -/
def makeDate (day time : Int) : Int := day * 86400000 + time

/-- The time value of calendar components, as computed by Date.parse from a parsed
date-time form. -/
def timeFromComponents (c : DateComponents) : Int :=
  makeDate (makeDay c.year c.month c.day) (makeTime c.hour c.minute c.second c.milli)

/-- The time values whose toISOString uses the plain four-digit year form, years
0000 through 9999. Appointment timestamps are treated as valid when in this range
(the expanded six-digit year forms of ECMA-262 lie outside this model). -/
def validTime (t : Int) : Prop :=
  -62167219200000 ≤ t ∧ t ≤ 253402300799999

instance (t : Int) : Decidable (validTime t) := by
  unfold validTime
  infer_instance

/-- Zero-padded decimal digit lists. -/
def pad2 (n : Nat) : List Char :=
  [Nat.digitChar (n / 10 % 10), Nat.digitChar (n % 10)]

def pad3 (n : Nat) : List Char :=
  [Nat.digitChar (n / 100 % 10), Nat.digitChar (n / 10 % 10), Nat.digitChar (n % 10)]

def pad4 (n : Nat) : List Char :=
  [Nat.digitChar (n / 1000 % 10), Nat.digitChar (n / 100 % 10),
   Nat.digitChar (n / 10 % 10), Nat.digitChar (n % 10)]

/-- The 24 characters of the simplified ISO-8601 form YYYY-MM-DDTHH:mm:ss.sssZ. -/
def renderComponents (c : DateComponents) : List Char :=
  pad4 c.year.toNat ++ '-' :: pad2 c.month.toNat ++ '-' :: pad2 c.day.toNat
    ++ 'T' :: pad2 c.hour.toNat ++ ':' :: pad2 c.minute.toNat
    ++ ':' :: pad2 c.second.toNat ++ '.' :: pad3 c.milli.toNat ++ ['Z']

/-- Date.prototype.toISOString for the supported year range. -/
def toISOString (t : Int) : String :=
  String.mk (renderComponents (dateComponentsFromTime t))

/-- Decimal digit value of a character, when it is one. -/
def digitValue (ch : Char) : Option Nat :=
  if ch.isDigit then some (ch.toNat - 48) else none

/-- Parse of the 24-character simplified ISO-8601 date-time form, as accepted by
Date.parse: digits at fixed positions with the ECMA-262 field range rules
(out-of-range month, day, hour, minute or second values make the parse fail; an
overflowing day of month is left to MakeDay arithmetic, which rolls it over). -/
def parseISOChars : List Char → Option DateComponents
  | [y1, y2, y3, y4, s1, m1, m2, s2, d1, d2, s3, h1, h2, s4, i1, i2, s5,
     k1, k2, s6, f1, f2, f3, s7] =>
    if s1 = '-' ∧ s2 = '-' ∧ s3 = 'T' ∧ s4 = ':' ∧ s5 = ':' ∧ s6 = '.' ∧ s7 = 'Z' then
      match digitValue y1, digitValue y2, digitValue y3, digitValue y4,
          digitValue m1, digitValue m2, digitValue d1, digitValue d2,
          digitValue h1, digitValue h2, digitValue i1, digitValue i2,
          digitValue k1, digitValue k2, digitValue f1, digitValue f2,
          digitValue f3 with
      | some a1, some a2, some a3, some a4, some b1, some b2, some c1, some c2,
        some e1, some e2, some g1, some g2, some j1, some j2, some l1, some l2,
        some l3 =>
        let year : Int := ((a1 * 10 + a2) * 10 + a3) * 10 + a4
        let month : Int := b1 * 10 + b2
        let day : Int := c1 * 10 + c2
        let hour : Int := e1 * 10 + e2
        let minute : Int := g1 * 10 + g2
        let second : Int := j1 * 10 + j2
        let milli : Int := (l1 * 10 + l2) * 10 + l3
        if 1 ≤ month ∧ month ≤ 12 ∧ 1 ≤ day ∧ day ≤ 31 ∧ hour ≤ 24 ∧
            minute ≤ 59 ∧ second ≤ 59 ∧
            (hour = 24 → minute = 0 ∧ second = 0 ∧ milli = 0) then
          some { year := year, month := month, day := day, hour := hour,
                 minute := minute, second := second, milli := milli }
        else none
      | _, _, _, _, _, _, _, _, _, _, _, _, _, _, _, _, _ => none
    else none
  | _ => none

/-- Date.parse, then the time-value range clamp of the Date constructor: the model
accepts exactly the simplified ISO form produced by toISOString (the other
implementation-specific date formats are outside this model). -/
def parseDate (s : String) : Option Int :=
  match parseISOChars s.data with
  | some c =>
    let tv := timeFromComponents c
    if -8640000000000000 ≤ tv ∧ tv ≤ 8640000000000000 then some tv else none
  | none => none

/-- JSON values, the result domain of JSON.parse (numbers restricted to the integral
ones this payload carries). -/
inductive Json where
  | null
  | bool (b : Bool)
  | num (n : Int)
  | str (s : String)
  | arr (items : List Json)
  | obj (fields : List (String × Json))

/-- The text of an appointment type. -/
def typeText : AppointmentType → String
  | AppointmentType.meeting => "meeting"
  | AppointmentType.block => "block"
  | AppointmentType.personal => "personal"
  | AppointmentType.availability => "availability"

/-- JSON.stringify of one appointment: keys in creation order, Date values through
toJSON (that is, toISOString), the optional absent description omitted. -/
def appointmentJson (a : Appointment) : Json :=
  Json.obj ([("id", Json.str a.id), ("title", Json.str a.title),
    ("start", Json.str (toISOString a.start)),
    ("end", Json.str (toISOString a.endTime)),
    ("requesterName", Json.str a.requesterName)]
    ++ (match a.description with
        | some d => [("description", Json.str d)]
        | none => [])
    ++ [("type", Json.str (typeText a.type))])

/-- serialize from storageService: JSON.stringify of the collection, modeled at the
JSON value level (the character syntax of JSON, a bijective grammar for these
values, is the platform layer). -/
def serialize (appointments : List Appointment) : Json :=
  Json.arr (appointments.map appointmentJson)

/-- The record one deserialized element produces: the source spreads the raw parsed
element and overwrites start and end with Date objects; a Date is a time value or
none for an Invalid Date. -/
structure RawAppointment where
  fields : List (String × Json)
  start : Option Int
  endTime : Option Int

/-- new Date(v) on a property value: an absent property (undefined) gives an Invalid
Date; a string parses as a date string; a number is its time value when in range;
null coerces to 0 and a boolean to 0 or 1; the remaining object coercion corners are
modeled as Invalid. -/
def dateOf (v : Option Json) : Option Int :=
  match v with
  | none => none
  | some (Json.str s) => parseDate s
  | some (Json.num n) =>
    if -8640000000000000 ≤ n ∧ n ≤ 8640000000000000 then some n else none
  | some Json.null => some 0
  | some (Json.bool b) => some (if b then 1 else 0)
  | some _ => none

/-- Property read on a parsed JSON object. -/
def lookupField (fields : List (String × Json)) (k : String) : Option Json :=
  (fields.find? fun f => f.1 == k).map fun f => f.2

/-- The object spread of a JSON value: objects keep their fields, arrays and strings
spread to index-keyed entries, primitives spread to nothing. -/
def spreadFields : Json → List (String × Json)
  | Json.obj fs => fs
  | Json.arr xs => xs.enum.map fun p => (toString p.1, p.2)
  | Json.str str => str.data.enum.map fun p => (toString p.1, Json.str (String.mk [p.2]))
  | _ => []

/-- One element of the deserialize map. Reading a property of null throws, which
surfaces as the error case; otherwise the element spreads, with start and end read
as Dates (property reads on non-objects give undefined, hence Invalid Dates). -/
def elementToRaw : Json → Except Unit RawAppointment
  | Json.null => Except.error ()
  | j =>
    let fs := match j with
      | Json.obj fields => fields
      | _ => []
    Except.ok
      { fields := (spreadFields j).filter fun f => ¬(f.1 = "start" ∨ f.1 = "end")
        start := dateOf (lookupField fs "start")
        endTime := dateOf (lookupField fs "end") }

/-- deserialize from storageService: JSON.parse must have produced an array (calling
map on anything else throws), then each element maps through the spread; a thrown
element error propagates to the caller. -/
def deserialize (data : Json) : Except Unit (List RawAppointment) :=
  match data with
  | Json.arr items => items.mapM elementToRaw
  | _ => Except.error ()

/-- The stored payload under the fixed key: absent, text JSON.parse rejects, or text
parsing to a JSON value (the character-level JSON grammar is the platform layer). -/
inductive StoredPayload where
  | absent
  | unparseable
  | value (j : Json)

/-- getAppointments from storageService: empty when the key is absent; otherwise
deserialize inside try/catch, any thrown failure logging and returning the empty
collection. -/
def getAppointments (stored : StoredPayload) : List RawAppointment :=
  match stored with
  | StoredPayload.absent => []
  | StoredPayload.unparseable => []
  | StoredPayload.value j =>
    match deserialize j with
    | Except.ok appointments => appointments
    | Except.error _ => []

/-- The record a serialized appointment deserializes back to. -/
def rawOfAppointment (a : Appointment) : RawAppointment :=
  { fields := [("id", Json.str a.id), ("title", Json.str a.title),
      ("requesterName", Json.str a.requesterName)]
      ++ (match a.description with
          | some d => [("description", Json.str d)]
          | none => [])
      ++ [("type", Json.str (typeText a.type))]
    start := some a.start
    endTime := some a.endTime }

/-- The observable tuple of a stored appointment. -/
def appointmentTuple (a : Appointment) :
    Option (String × String × Int × Int × String × String) :=
  some (a.id, a.title, a.start, a.endTime, a.requesterName, typeText a.type)

/-- The observable tuple of a deserialized record, when it has the six fields. -/
def rawTuple (r : RawAppointment) :
    Option (String × String × Int × Int × String × String) :=
  match lookupField r.fields "id", lookupField r.fields "title", r.start, r.endTime,
      lookupField r.fields "requesterName", lookupField r.fields "type" with
  | some (Json.str i), some (Json.str ti), some sv, some ev,
    some (Json.str rn), some (Json.str ty) => some (i, ti, sv, ev, rn, ty)
  | _, _, _, _, _, _ => none

/-! Theorems. -/

/-- Under nonempty title and name fields and a start not in the past, handleSubmit
reduces to the availability check: success saves the built appointment, failure is
the overlap error. -/
theorem handleSubmit_of_valid_fields (current : List Appointment) (now : Int)
    (role : Role) (existing : Option Appointment) (freshId title name : String)
    (t duration : Int) (htitle : title ≠ "") (hname : name ≠ "") (hnotpast : ¬ t < now) :
    handleSubmit current now role existing freshId title name (some t) duration =
      if checkAvailability current t (t + duration * 60000) (existing.map fun a => a.id)
      then Except.ok (saveAppointment current
        (builtAppointment role existing freshId title name t duration))
      else Except.error SubmitError.overlapError := by
  have h1 : (title == "") = false := beq_eq_false_iff_ne.mpr htitle
  have h2 : (name == "") = false := beq_eq_false_iff_ne.mpr hname
  unfold handleSubmit builtAppointment
  simp only [h1, h2, Bool.or_self, if_neg hnotpast]
  by_cases hc : checkAvailability current t (t + duration * 60000)
      (existing.map fun a => a.id)
  · simp [hc]
  · simp [hc]

/-- On an error result the submit leaves the stored collection untouched. -/
theorem submitStore_of_error (current : List Appointment) (now : Int) (role : Role)
    (existing : Option Appointment) (freshId title name : String)
    (dateTime : Option Int) (duration : Int) (e : SubmitError)
    (h : handleSubmit current now role existing freshId title name dateTime duration
        = Except.error e) :
    submitStore current now role existing freshId title name dateTime duration
        = current := by
  unfold submitStore
  rw [h]

/-- On a success result the submit stores exactly the returned collection. -/
theorem submitStore_of_ok (current : List Appointment) (now : Int) (role : Role)
    (existing : Option Appointment) (freshId title name : String)
    (dateTime : Option Int) (duration : Int) (updated : List Appointment)
    (h : handleSubmit current now role existing freshId title name dateTime duration
        = Except.ok updated) :
    submitStore current now role existing freshId title name dateTime duration
        = updated := by
  unfold submitStore
  rw [h]

/-- Claim C6: the overlap test returns true iff start < other.end and end > other.start;
it is symmetric, and touching-but-not-crossing half-open ranges such as 10:00-10:30
and 10:30-11:00 (in milliseconds of the day) never overlap, in either order. -/
theorem c6_overlap_iff_symmetric_touching :
    (∀ s e os oe : Int, overlaps s e os oe = true ↔ (s < oe ∧ e > os)) ∧
    (∀ s e os oe : Int, overlaps s e os oe = overlaps os oe s e) ∧
    overlaps 36000000 37800000 37800000 39600000 = false ∧
    overlaps 37800000 39600000 36000000 37800000 = false := by
  refine ⟨fun s e os oe => by simp [overlaps], fun s e os oe => ?_, by decide, by decide⟩
  simp only [overlaps, gt_iff_lt]
  rw [Bool.and_comm]

/-- Claim C10: saveAppointment is replace-by-id or append. When some stored record has
the incoming id, the record at the found index (whose id matches) is replaced, the
count is unchanged and every other position is untouched; when no record has the id,
the appointment is appended, the count grows by one and every existing position is
untouched. -/
theorem c10_saveAppointment_upsert (current : List Appointment) (a : Appointment) :
    (current.any (fun b => b.id == a.id) = true →
      saveAppointment current a
          = current.set (current.findIdx fun b => b.id == a.id) a ∧
        (saveAppointment current a).length = current.length ∧
        (current[current.findIdx fun b => b.id == a.id]?).map (fun b => b.id)
          = some a.id ∧
        ∀ j : Nat, j ≠ (current.findIdx fun b => b.id == a.id) →
          (saveAppointment current a)[j]? = current[j]?) ∧
    ((∀ b ∈ current, b.id ≠ a.id) →
      saveAppointment current a = current ++ [a] ∧
      (saveAppointment current a).length = current.length + 1 ∧
      ∀ j : Nat, j < current.length → (saveAppointment current a)[j]? = current[j]?) := by
  constructor
  · intro h
    have hex : ∃ x ∈ current, (x.id == a.id) = true := by
      simpa [List.any_eq_true] using h
    have hlt : (current.findIdx fun b => b.id == a.id) < current.length :=
      List.findIdx_lt_length_of_exists hex
    have heq : saveAppointment current a
        = current.set (current.findIdx fun b => b.id == a.id) a := by
      unfold saveAppointment
      simp [hlt]
    refine ⟨heq, by rw [heq]; simp, ?_, ?_⟩
    · rw [List.getElem?_eq_getElem hlt]
      have hp := @List.findIdx_getElem _ (fun b => b.id == a.id) current hlt
      simpa using hp
    · intro j hj
      rw [heq]
      exact List.getElem?_set_ne (Ne.symm hj)
  · intro h
    have hall : ∀ x ∈ current, (fun b => b.id == a.id) x = false := by
      intro x hx
      simpa using h x hx
    have hidx : (current.findIdx fun b => b.id == a.id) = current.length :=
      List.findIdx_eq_length_of_false hall
    have heq : saveAppointment current a = current ++ [a] := by
      unfold saveAppointment
      simp [hidx]
    refine ⟨heq, by rw [heq]; simp, ?_⟩
    intro j hj
    rw [heq]
    exact List.getElem?_append_left hj

/-- Concrete appointments for witnesses. -/
def apptMeetingX : Appointment :=
  { id := "x", title := "T1", start := 0, endTime := 1800000,
    requesterName := "A", type := AppointmentType.meeting }

def apptAvailX : Appointment :=
  { id := "x", title := "T2", start := 3600000, endTime := 5400000,
    requesterName := "B", type := AppointmentType.availability }

def apptMeetingY : Appointment :=
  { id := "y", title := "T3", start := 0, endTime := 1800000,
    requesterName := "C", type := AppointmentType.meeting }

/-- Witness for C10: replacing the sole record with matching id, and appending past a
record with a different id while leaving position 0 untouched. -/
theorem c10_saveAppointment_upsert_witness :
    saveAppointment [apptMeetingX] apptAvailX = [apptAvailX] ∧
    (saveAppointment [apptMeetingY] apptAvailX)[0]? = some apptMeetingY := by
  constructor
  · have h := (c10_saveAppointment_upsert [apptMeetingX] apptAvailX).1 (by decide)
    exact h.1.trans (by decide)
  · have h := (c10_saveAppointment_upsert [apptMeetingY] apptAvailX).2 (by decide)
    exact (h.2.2 0 (by decide)).trans (by decide)

/-- Claim C2: an owner opening a new availability (no existing appointment, so no
excluded id) whose range overlaps any stored record of either type gets the overlap
error, and the stored collection is untouched. -/
theorem c2_owner_new_slot_overlap_blocked (current : List Appointment) (now : Int)
    (freshId title name : String) (t duration : Int) (b : Appointment)
    (htitle : title ≠ "") (hname : name ≠ "") (hnotpast : ¬ t < now)
    (hb : b ∈ current)
    (hoverlap : t < b.endTime ∧ t + duration * 60000 > b.start) :
    handleSubmit current now Role.owner none freshId title name (some t) duration
        = Except.error SubmitError.overlapError ∧
    submitStore current now Role.owner none freshId title name (some t) duration
        = current := by
  have hchk : checkAvailability current t (t + duration * 60000)
      ((none : Option Appointment).map fun a => a.id) = false := by
    unfold checkAvailability
    have hany : (current.any fun apt =>
        if matchesExclude ((none : Option Appointment).map fun a => a.id) apt.id
        then false
        else overlaps t (t + duration * 60000) apt.start apt.endTime) = true := by
      rw [List.any_eq_true]
      refine ⟨b, hb, ?_⟩
      simp [matchesExclude, overlaps]
      exact hoverlap
    rw [hany]
    rfl
  have h := handleSubmit_of_valid_fields current now Role.owner none freshId title
    name t duration htitle hname hnotpast
  rw [hchk] at h
  simp only [Bool.false_eq_true, if_false] at h
  exact ⟨h, submitStore_of_error _ _ _ _ _ _ _ _ _ _ h⟩

/-- Witness data: an availability slot and an unrelated meeting. -/
def wAvail : Appointment :=
  { id := "a1", title := "Open for Booking", start := 36000000, endTime := 37800000,
    requesterName := "Me", type := AppointmentType.availability }

def wMeeting : Appointment :=
  { id := "m1", title := "Standup", start := 39600000, endTime := 41400000,
    requesterName := "Bob", type := AppointmentType.meeting }

/-- Witness for C2: opening a slot over the stored meeting fails with the overlap
error and leaves the store unchanged. -/
theorem c2_owner_new_slot_overlap_blocked_witness :
    handleSubmit [wMeeting] 0 Role.owner none "f1" "Open" "Me" (some 39600000) 30
        = Except.error SubmitError.overlapError ∧
    submitStore [wMeeting] 0 Role.owner none "f1" "Open" "Me" (some 39600000) 30
        = [wMeeting] :=
  c2_owner_new_slot_overlap_blocked [wMeeting] 0 "f1" "Open" "Me" 39600000 30 wMeeting
    (by decide) (by decide) (by decide) (by decide) (by decide)

/-- With a nonempty excluded id, the availability check passes when no
differently-identified record overlaps the candidate range. -/
theorem checkAvailability_excluded_true (current : List Appointment) (s e : Int)
    (xid : String) (hxid : xid ≠ "")
    (hfree : ∀ b ∈ current, b.id ≠ xid → ¬ (s < b.endTime ∧ e > b.start)) :
    checkAvailability current s e (some xid) = true := by
  unfold checkAvailability
  have hany : (current.any fun apt =>
      if matchesExclude (some xid) apt.id then false
      else overlaps s e apt.start apt.endTime) = false := by
    rw [List.any_eq_false]
    intro apt hapt
    by_cases hm : matchesExclude (some xid) apt.id = true
    · rw [if_pos hm]
      simp
    · have hid : apt.id ≠ xid := by
        intro hc
        exact hm (by simp [matchesExclude, hxid, hc])
      rw [if_neg hm]
      have hnov := hfree apt hapt hid
      simp only [overlaps, Bool.and_eq_true, decide_eq_true_eq, not_and]
      intro h1 h2
      exact hnov ⟨h1, h2⟩
  rw [hany]
  rfl

/-- The availability check fails when some record whose id differs from the excluded
id overlaps the candidate range. -/
theorem checkAvailability_excluded_false (current : List Appointment) (s e : Int)
    (xid : String) (b : Appointment) (hb : b ∈ current) (hbid : b.id ≠ xid)
    (hov : s < b.endTime ∧ e > b.start) :
    checkAvailability current s e (some xid) = false := by
  unfold checkAvailability
  have hany : (current.any fun apt =>
      if matchesExclude (some xid) apt.id then false
      else overlaps s e apt.start apt.endTime) = true := by
    rw [List.any_eq_true]
    refine ⟨b, hb, ?_⟩
    have hm : ¬ matchesExclude (some xid) b.id = true := by
      intro hc
      simp only [matchesExclude, Bool.and_eq_true, Bool.not_eq_true',
        beq_eq_false_iff_ne, beq_iff_eq] at hc
      exact hbid hc.2
    rw [if_neg hm]
    simp [overlaps]
    exact hov
  rw [hany]
  rfl

/-- Claim C1: when a candidate meeting targets an availability record and passes its
id as the excluded id, overlap with that record itself is ignored: with no
differently-identified overlapping record the submit succeeds and saves; with one,
it fails with the overlap error. -/
theorem c1_exclude_target_overlap_policy (current : List Appointment) (now : Int)
    (A : Appointment) (freshId title name : String) (t duration : Int)
    (htitle : title ≠ "") (hname : name ≠ "") (hnotpast : ¬ t < now)
    (hAty : A.type = AppointmentType.availability) (hAid : A.id ≠ "") :
    ((∀ b ∈ current, b.id ≠ A.id →
        ¬ (t < b.endTime ∧ t + duration * 60000 > b.start)) →
      handleSubmit current now Role.colleague (some A) freshId title name
          (some t) duration
        = Except.ok (saveAppointment current
            { id := A.id, title := title, start := t, endTime := t + duration * 60000,
              requesterName := name, type := AppointmentType.meeting })) ∧
    ((∃ b ∈ current, b.id ≠ A.id ∧ (t < b.endTime ∧ t + duration * 60000 > b.start)) →
      handleSubmit current now Role.colleague (some A) freshId title name
          (some t) duration
        = Except.error SubmitError.overlapError) := by
  have h := handleSubmit_of_valid_fields current now Role.colleague (some A) freshId
    title name t duration htitle hname hnotpast
  simp only [Option.map_some'] at h
  have hbuilt : builtAppointment Role.colleague (some A) freshId title name t duration
      = { id := A.id, title := title, start := t, endTime := t + duration * 60000,
          requesterName := name, type := AppointmentType.meeting } := by
    simp [builtAppointment, isBookingOpenSlot, hAty]
  constructor
  · intro hfree
    have hchk := checkAvailability_excluded_true current t (t + duration * 60000)
      A.id hAid hfree
    rw [if_pos hchk] at h
    rw [hbuilt] at h
    exact h
  · rintro ⟨b, hb, hid, hov⟩
    have hchk := checkAvailability_excluded_false current t (t + duration * 60000)
      A.id b hb hid hov
    have hnot : ¬ checkAvailability current t (t + duration * 60000) (some A.id) = true := by
      simp [hchk]
    rw [if_neg hnot] at h
    exact h

/-- Inversion of a successful submit: the date and time fields were present and the
result is exactly the saved built appointment. -/
theorem handleSubmit_ok_inv (current : List Appointment) (now : Int) (role : Role)
    (existing : Option Appointment) (freshId title name : String)
    (dateTime : Option Int) (duration : Int) (r : List Appointment)
    (h : handleSubmit current now role existing freshId title name dateTime duration
        = Except.ok r) :
    ∃ t, dateTime = some t ∧
      r = saveAppointment current
        (builtAppointment role existing freshId title name t duration) := by
  cases dateTime with
  | none => exact absurd h (by simp [handleSubmit])
  | some t =>
    refine ⟨t, rfl, ?_⟩
    unfold handleSubmit at h
    dsimp only at h
    split at h
    · exact absurd h (by simp)
    · split at h
      · exact absurd h (by simp)
      · split at h
        · exact absurd h (by simp)
        · injection h with h
          exact h.symm

/-- Second conflicting meeting for witnesses: overlaps the 10:00-10:30 candidate. -/
def wConflict : Appointment :=
  { id := "m2", title := "Review", start := 37000000, endTime := 38800000,
    requesterName := "Eve", type := AppointmentType.meeting }

/-- Witness for C1: booking the availability slot succeeds when only the targeted
record overlaps, and is blocked when a differently-identified record overlaps. -/
theorem c1_exclude_target_overlap_policy_witness :
    handleSubmit [wAvail, wMeeting] 0 Role.colleague (some wAvail) "f2" "Code review"
        "Dana" (some 36000000) 30
      = Except.ok (saveAppointment [wAvail, wMeeting]
          { id := "a1", title := "Code review", start := 36000000, endTime := 37800000,
            requesterName := "Dana", type := AppointmentType.meeting }) ∧
    handleSubmit [wAvail, wConflict] 0 Role.colleague (some wAvail) "f2" "Code review"
        "Dana" (some 36000000) 30 = Except.error SubmitError.overlapError := by
  constructor
  · exact (c1_exclude_target_overlap_policy [wAvail, wMeeting] 0 wAvail "f2"
      "Code review" "Dana" 36000000 30 (by decide) (by decide) (by decide) (by decide)
      (by decide)).1 (by decide)
  · exact (c1_exclude_target_overlap_policy [wAvail, wConflict] 0 wAvail "f2"
      "Code review" "Dana" 36000000 30 (by decide) (by decide) (by decide) (by decide)
      (by decide)).2 ⟨wConflict, by decide, by decide, by decide⟩

/-- The availability record of the C4 counterexample and the record the code actually
saves when the owner edits it. -/
def c4Availability : Appointment :=
  { id := "a1", title := "Open for Booking", start := 36000000, endTime := 37800000,
    requesterName := "Me", type := AppointmentType.availability }

def c4Edited : Appointment :=
  { id := "a1", title := "Open for Booking", start := 36000000, endTime := 37800000,
    requesterName := "Me", type := AppointmentType.meeting }

/-- Counterexample to C4 as stated: the owner edits an existing availability record
(all checks pass), yet the record saved in its place has type meeting, not
availability — the cell does not stay Available. -/
theorem c4_counterexample :
    handleSubmit [c4Availability] 0 Role.owner (some c4Availability) "f1"
        "Open for Booking" "Me" (some 36000000) 30
      = Except.ok [c4Edited] ∧
    c4Edited.type ≠ AppointmentType.availability := by
  exact ⟨rfl, by decide⟩

/-- Claim C4 as amended: when the owner edits an existing availability record and the
edit passes the checks, the record saved in its place has type meeting (the type
determination defaults to meeting whenever an existing appointment is supplied), so
the cell becomes Booked rather than staying Available. -/
theorem c4_owner_edit_saves_meeting (current : List Appointment) (now : Int)
    (A : Appointment) (freshId title name : String) (t duration : Int)
    (r : List Appointment)
    (hAty : A.type = AppointmentType.availability)
    (h : handleSubmit current now Role.owner (some A) freshId title name
        (some t) duration = Except.ok r) :
    r = saveAppointment current
      { id := A.id, title := title, start := t, endTime := t + duration * 60000,
        requesterName := name, type := AppointmentType.meeting } := by
  obtain ⟨t2, ht2, hr⟩ := handleSubmit_ok_inv current now Role.owner (some A) freshId
    title name (some t) duration r h
  injection ht2 with ht2
  subst ht2
  rw [hr]
  have hb : builtAppointment Role.owner (some A) freshId title name t duration
      = { id := A.id, title := title, start := t, endTime := t + duration * 60000,
          requesterName := name, type := AppointmentType.meeting } := by
    simp [builtAppointment]
  rw [hb]

/-- Witness for C4 as amended: the concrete owner edit saves the meeting-typed
record. -/
theorem c4_owner_edit_saves_meeting_witness :
    ([c4Edited] : List Appointment) = saveAppointment [c4Availability]
      { id := c4Availability.id, title := "Open for Booking", start := 36000000,
        endTime := 36000000 + 30 * 60000, requesterName := "Me",
        type := AppointmentType.meeting } :=
  c4_owner_edit_saves_meeting [c4Availability] 0 c4Availability "f1"
    "Open for Booking" "Me" 36000000 30 [c4Edited] (by decide) rfl

/-- The appointment the C7 counterexample creates: end precedes start. -/
def c7Saved : Appointment :=
  { id := "id1", title := "Sync", start := 86400000000, endTime := 86398200000,
    requesterName := "Ann", type := AppointmentType.availability }

/-- Counterexample to C7 as stated: with duration -30 (reachable through the
suggestion-prefilled duration) the submit performs no interval-validity check,
succeeds, and creates an appointment whose end is not after its start — no
InvalidRange failure exists in the code. -/
theorem c7_counterexample :
    handleSubmit [] 0 Role.owner none "id1" "Sync" "Ann" (some 86400000000) (-30)
      = Except.ok [c7Saved] ∧
    c7Saved.endTime ≤ c7Saved.start := by
  exact ⟨rfl, by decide⟩

/-- Claim C7 as amended: the workflow computes end as start plus duration times 60000
with no range validation; whenever the duration is positive (always the case for the
fixed UI choices) the created appointment satisfies start < end, but construction
never fails for any duration. -/
theorem c7_positive_duration_start_before_end (current : List Appointment) (now : Int)
    (role : Role) (existing : Option Appointment) (freshId title name : String)
    (t duration : Int) (r : List Appointment)
    (hdur : 0 < duration)
    (h : handleSubmit current now role existing freshId title name (some t) duration
        = Except.ok r) :
    r = saveAppointment current
        (builtAppointment role existing freshId title name t duration) ∧
    (builtAppointment role existing freshId title name t duration).start
      < (builtAppointment role existing freshId title name t duration).endTime := by
  obtain ⟨t2, ht2, hr⟩ := handleSubmit_ok_inv current now role existing freshId
    title name (some t) duration r h
  injection ht2 with ht2
  subst ht2
  refine ⟨hr, ?_⟩
  show t < t + duration * 60000
  omega

/-- Witness for C7 as amended: a concrete positive-duration booking saves an
appointment whose start precedes its end. -/
theorem c7_positive_duration_start_before_end_witness :
    ([wAvail] : List Appointment) = saveAppointment []
        (builtAppointment Role.owner none "a1" "Open for Booking" "Me" 36000000 30) ∧
    (builtAppointment Role.owner none "a1" "Open for Booking" "Me" 36000000 30).start
      < (builtAppointment Role.owner none "a1" "Open for Booking" "Me" 36000000 30).endTime :=
  c7_positive_duration_start_before_end [] 0 Role.owner none "a1" "Open for Booking"
    "Me" 36000000 30 [wAvail] (by decide) rfl

/-- The stored meeting and the conflicting one of the C5 counterexample. -/
def c5Existing : Appointment :=
  { id := "m1", title := "Standup", start := 0, endTime := 1800000,
    requesterName := "Bob", type := AppointmentType.meeting }

def c5Conflicting : Appointment :=
  { id := "m2", title := "Review", start := 900000, endTime := 2700000,
    requesterName := "Cara", type := AppointmentType.meeting }

/-- Counterexample to C5 as stated: saveAppointment, the store upsert, performs no
overlap validation: handed an appointment overlapping a stored record it persists it
(its return carries no error channel at all) instead of failing. -/
theorem c5_counterexample :
    overlaps c5Conflicting.start c5Conflicting.endTime c5Existing.start
        c5Existing.endTime = true ∧
    c5Conflicting.id ≠ c5Existing.id ∧
    saveAppointment [c5Existing] c5Conflicting = [c5Existing, c5Conflicting] := by
  exact ⟨by decide, by decide, rfl⟩

/-- Claim C5 as amended: overlap validation lives in the booking workflow, not in the
store upsert. Every submit either fails with an error and leaves the store untouched
(no partial writes) or succeeds and stores exactly the saveAppointment result. -/
theorem c5_workflow_validates_not_store (current : List Appointment) (now : Int)
    (role : Role) (existing : Option Appointment) (freshId title name : String)
    (dateTime : Option Int) (duration : Int) :
    (∃ e, handleSubmit current now role existing freshId title name dateTime duration
          = Except.error e ∧
        submitStore current now role existing freshId title name dateTime duration
          = current) ∨
    (∃ t, dateTime = some t ∧
      handleSubmit current now role existing freshId title name dateTime duration
        = Except.ok (saveAppointment current
            (builtAppointment role existing freshId title name t duration)) ∧
      submitStore current now role existing freshId title name dateTime duration
        = saveAppointment current
            (builtAppointment role existing freshId title name t duration)) := by
  cases hres : handleSubmit current now role existing freshId title name dateTime
      duration with
  | error e =>
    exact Or.inl ⟨e, rfl, submitStore_of_error _ _ _ _ _ _ _ _ _ _ hres⟩
  | ok updated =>
    obtain ⟨t, hdt, hupd⟩ := handleSubmit_ok_inv _ _ _ _ _ _ _ _ _ _ hres
    refine Or.inr ⟨t, hdt, ?_, ?_⟩
    · rw [hupd]
    · rw [submitStore_of_ok _ _ _ _ _ _ _ _ _ _ hres, hupd]


/-- Claim C3: a colleague booking an availability record A (unique ids, well-formed
ranges, no foreign overlap, checks passing) replaces A in place: the result sets the
found index to the new meeting, the count is unchanged, the old availability record
is gone, exactly the new meeting record occupies the origin cell, and no second
record exists at that cell. -/
theorem c3_colleague_booking_replaces (current : List Appointment) (now : Int)
    (A : Appointment) (freshId title name : String) (duration : Int)
    (hwf : ∀ b ∈ current, b.start < b.endTime)
    (hA : A ∈ current)
    (hAty : A.type = AppointmentType.availability)
    (hAid : A.id ≠ "")
    (hnodup : (current.map fun b => b.id).Nodup)
    (htitle : title ≠ "") (hname : name ≠ "")
    (hnotpast : ¬ A.start < now)
    (hdur : 0 < duration)
    (hfree : ∀ b ∈ current, b.id ≠ A.id →
      ¬ (A.start < b.endTime ∧ A.start + duration * 60000 > b.start)) :
    handleSubmit current now Role.colleague (some A) freshId title name
        (some A.start) duration
      = Except.ok (current.set (current.findIdx fun b => b.id == A.id)
          (bookedMeeting A title name duration)) ∧
    (current.set (current.findIdx fun b => b.id == A.id)
        (bookedMeeting A title name duration)).length = current.length ∧
    A ∉ current.set (current.findIdx fun b => b.id == A.id)
        (bookedMeeting A title name duration) ∧
    bookedMeeting A title name duration ∈
      current.set (current.findIdx fun b => b.id == A.id)
        (bookedMeeting A title name duration) ∧
    ∀ b ∈ current.set (current.findIdx fun b => b.id == A.id)
        (bookedMeeting A title name duration),
      b.start = A.start → b = bookedMeeting A title name duration := by
  have hexists : ∃ x ∈ current, (x.id == A.id) = true := ⟨A, hA, by simp⟩
  have hlt : (current.findIdx fun b => b.id == A.id) < current.length :=
    List.findIdx_lt_length_of_exists hexists
  have hidxid : (current[current.findIdx fun b => b.id == A.id]).id = A.id := by
    simpa using @List.findIdx_getElem _ (fun b => b.id == A.id) current hlt
  have huniq : ∀ j (hj : j < current.length), current[j].id = A.id →
      j = (current.findIdx fun b => b.id == A.id) := by
    intro j hj hjid
    have hmj : j < (current.map fun b => b.id).length := by simpa using hj
    have hmi : (current.findIdx fun b => b.id == A.id)
        < (current.map fun b => b.id).length := by simpa using hlt
    have h1 : (current.map fun b => b.id)[j]
        = (current.map fun b => b.id)[current.findIdx fun b => b.id == A.id] := by
      rw [List.getElem_map, List.getElem_map, hjid, hidxid]
    exact hnodup.getElem_inj_iff.mp h1
  have hmem_set_length : (current.set (current.findIdx fun b => b.id == A.id)
      (bookedMeeting A title name duration)).length = current.length := by simp
  have hsave : saveAppointment current (bookedMeeting A title name duration)
      = current.set (current.findIdx fun b => b.id == A.id)
          (bookedMeeting A title name duration) := by
    show (if (current.findIdx fun b => b.id == A.id) < current.length then
      current.set (current.findIdx fun b => b.id == A.id)
        (bookedMeeting A title name duration)
    else current ++ [bookedMeeting A title name duration])
      = current.set (current.findIdx fun b => b.id == A.id)
          (bookedMeeting A title name duration)
    rw [if_pos hlt]
  have hstep : handleSubmit current now Role.colleague (some A) freshId title name
      (some A.start) duration
      = Except.ok (current.set (current.findIdx fun b => b.id == A.id)
          (bookedMeeting A title name duration)) := by
    have h := handleSubmit_of_valid_fields current now Role.colleague (some A) freshId
      title name A.start duration htitle hname hnotpast
    simp only [Option.map_some'] at h
    have hchk := checkAvailability_excluded_true current A.start
      (A.start + duration * 60000) A.id hAid hfree
    rw [if_pos hchk] at h
    have hbuilt : builtAppointment Role.colleague (some A) freshId title name
        A.start duration = bookedMeeting A title name duration := by
      simp [builtAppointment, bookedMeeting, isBookingOpenSlot, hAty]
    rw [hbuilt, hsave] at h
    exact h
  refine ⟨hstep, hmem_set_length, ?_, ?_, ?_⟩
  · intro hmem
    obtain ⟨j, hj, hjA⟩ := List.mem_iff_getElem.mp hmem
    have hjlen : j < current.length := by
      rw [hmem_set_length] at hj
      exact hj
    by_cases hje : j = (current.findIdx fun b => b.id == A.id)
    · subst hje
      have hBA : bookedMeeting A title name duration = A :=
        (List.getElem_set_self (by rw [List.length_set]; exact hjlen)).symm.trans hjA
      have hty := congrArg Appointment.type hBA
      simp [bookedMeeting, hAty] at hty
    · have hcur : current[j] = A := by
        rw [← hjA]
        exact (List.getElem_set_ne (fun hc => hje hc.symm) _).symm
      exact hje (huniq j hjlen (by rw [hcur]))
  · exact List.mem_iff_getElem.mpr ⟨current.findIdx fun b => b.id == A.id,
      by rw [List.length_set]; exact hlt,
      List.getElem_set_self (by rw [List.length_set]; exact hlt)⟩
  · intro b hmem hbstart
    obtain ⟨j, hj, hjb⟩ := List.mem_iff_getElem.mp hmem
    have hjlen : j < current.length := by
      rw [hmem_set_length] at hj
      exact hj
    by_cases hje : j = (current.findIdx fun b => b.id == A.id)
    · subst hje
      rw [← hjb]
      exact List.getElem_set_self (by rw [List.length_set]; exact hjlen)
    · have hcur : current[j] = b := by
        rw [← hjb]
        exact (List.getElem_set_ne (fun hc => hje hc.symm) _).symm
      have hbmem : b ∈ current := hcur ▸ List.getElem_mem hjlen
      have hbid : b.id ≠ A.id := by
        intro hc
        exact hje (huniq j hjlen (by rw [hcur]; exact hc))
      have hnov := hfree b hbmem hbid
      exact absurd ⟨by rw [← hbstart]; exact hwf b hbmem, by omega⟩ hnov

/-- Witness for C3: the concrete colleague booking replaces the availability record
in place, keeps the count, drops the old record and puts exactly the new meeting at
the origin cell. -/
theorem c3_colleague_booking_replaces_witness :
    handleSubmit [wAvail, wMeeting] 0 Role.colleague (some wAvail) "f9" "Code review"
        "Dana" (some wAvail.start) 45
      = Except.ok ([wAvail, wMeeting].set
          ([wAvail, wMeeting].findIdx fun b => b.id == wAvail.id)
          (bookedMeeting wAvail "Code review" "Dana" 45)) ∧
    (([wAvail, wMeeting].set ([wAvail, wMeeting].findIdx fun b => b.id == wAvail.id)
        (bookedMeeting wAvail "Code review" "Dana" 45)).length
      = ([wAvail, wMeeting] : List Appointment).length) ∧
    wAvail ∉ [wAvail, wMeeting].set
        ([wAvail, wMeeting].findIdx fun b => b.id == wAvail.id)
        (bookedMeeting wAvail "Code review" "Dana" 45) ∧
    bookedMeeting wAvail "Code review" "Dana" 45 ∈
      [wAvail, wMeeting].set ([wAvail, wMeeting].findIdx fun b => b.id == wAvail.id)
        (bookedMeeting wAvail "Code review" "Dana" 45) := by
  have h := c3_colleague_booking_replaces [wAvail, wMeeting] 0 wAvail "f9"
    "Code review" "Dana" 45 (by decide) (by decide) (by decide) (by decide)
    (by decide) (by decide) (by decide) (by decide) (by decide) (by decide)
  exact ⟨h.1, h.2.1, h.2.2.1, h.2.2.2.1⟩

/-- The gap between consecutive year starts is the year length. -/
theorem dayFromYear_succ_sub (y : Int) :
    dayFromYear (y + 1) - dayFromYear y = 365 + inLeapDays y := by
  by_cases h4 : y % 4 = 0 <;> by_cases h100 : y % 100 = 0 <;>
    by_cases h400 : y % 400 = 0 <;>
    simp [dayFromYear, inLeapDays, isLeapYear, h4, h100, h400] <;> omega

/-- Specification of the upward year walk: started at a year at or before the day
and given enough fuel, it lands on the year containing the day. -/
theorem yearFromDayAux_spec (fuel : Nat) (y d : Int)
    (h0 : dayFromYear y ≤ d) (hfuel : d < dayFromYear (y + fuel)) :
    dayFromYear (yearFromDayAux fuel y d) ≤ d ∧
      d < dayFromYear (yearFromDayAux fuel y d + 1) := by
  induction fuel generalizing y with
  | zero =>
    simp only [Nat.cast_zero, add_zero] at hfuel
    exact absurd (lt_of_le_of_lt h0 hfuel) (lt_irrefl _)
  | succ n ih =>
    unfold yearFromDayAux
    split
    · rename_i hle
      have harg : y + ((n : Int) + 1) = (y + 1) + (n : Int) := by ring
      have hfuel2 : d < dayFromYear ((y + 1) + (n : Int)) := by
        rw [← harg]
        have : ((n + 1 : Nat) : Int) = (n : Int) + 1 := by push_cast; ring
        rw [this] at hfuel
        exact hfuel
      exact ih (y + 1) hle hfuel2
    · rename_i hgt
      exact ⟨h0, lt_of_not_le hgt⟩

/-- On the supported day range, yearFromDay finds the year containing the day. -/
theorem yearFromDay_spec (d : Int) (h1 : -719528 ≤ d) (h2 : d ≤ 2932896) :
    dayFromYear (yearFromDay d) ≤ d ∧ d < dayFromYear (yearFromDay d + 1) := by
  unfold yearFromDay
  apply yearFromDayAux_spec
  · by_cases hneg : d < 0 <;> simp only [hneg, if_true, if_false, dayFromYear] <;>
      omega
  · show d < dayFromYear (1969 + (if d < 0 then d / 365 else d / 366) + (64 : Nat))
    by_cases hneg : d < 0 <;>
      simp only [hneg, if_true, if_false, dayFromYear, Nat.cast_ofNat] <;> omega

/-- On the supported day range the found year lies between 0 and 9999. -/
theorem yearFromDay_bounds (d : Int) (h1 : -719528 ≤ d) (h2 : d ≤ 2932896) :
    0 ≤ yearFromDay d ∧ yearFromDay d ≤ 9999 := by
  obtain ⟨ha, hb⟩ := yearFromDay_spec d h1 h2
  unfold dayFromYear at ha hb
  omega

set_option maxHeartbeats 1600000 in
/-- The month table is consistent: on a valid day-within-year the month is one of the
twelve, the month start is at or before the day, and the day of month fits. -/
theorem monthFromDoy_spec (ilp doy : Int) (hilp : ilp = 0 ∨ ilp = 1)
    (h0 : 0 ≤ doy) (h1 : doy < 365 + ilp) :
    0 ≤ monthFromDoy ilp doy ∧ monthFromDoy ilp doy ≤ 11 ∧
    monthStart ilp (monthFromDoy ilp doy) ≤ doy ∧
    doy - monthStart ilp (monthFromDoy ilp doy) ≤ 30 := by
  unfold monthFromDoy
  split_ifs <;> norm_num [monthStart] <;> omega

/-- On the supported range the computed components are within the rendered field
ranges. -/
theorem dateComponents_bounds (t : Int) (h : validTime t) :
    0 ≤ (dateComponentsFromTime t).year ∧ (dateComponentsFromTime t).year ≤ 9999 ∧
    1 ≤ (dateComponentsFromTime t).month ∧ (dateComponentsFromTime t).month ≤ 12 ∧
    1 ≤ (dateComponentsFromTime t).day ∧ (dateComponentsFromTime t).day ≤ 31 ∧
    0 ≤ (dateComponentsFromTime t).hour ∧ (dateComponentsFromTime t).hour ≤ 23 ∧
    0 ≤ (dateComponentsFromTime t).minute ∧ (dateComponentsFromTime t).minute ≤ 59 ∧
    0 ≤ (dateComponentsFromTime t).second ∧ (dateComponentsFromTime t).second ≤ 59 ∧
    0 ≤ (dateComponentsFromTime t).milli ∧ (dateComponentsFromTime t).milli ≤ 999 := by
  obtain ⟨h1, h2⟩ := h
  have hd1 : -719528 ≤ dayNumber t := by unfold dayNumber; omega
  have hd2 : dayNumber t ≤ 2932896 := by unfold dayNumber; omega
  obtain ⟨hy1, hy2⟩ := yearFromDay_spec (dayNumber t) hd1 hd2
  obtain ⟨hb1, hb2⟩ := yearFromDay_bounds (dayNumber t) hd1 hd2
  have hsucc := dayFromYear_succ_sub (yearFromDay (dayNumber t))
  have hilp : inLeapDays (yearFromDay (dayNumber t)) = 0 ∨
      inLeapDays (yearFromDay (dayNumber t)) = 1 := by
    unfold inLeapDays
    split
    · right; rfl
    · left; rfl
  have hdoy0 : 0 ≤ dayNumber t - dayFromYear (yearFromDay (dayNumber t)) := by omega
  have hdoy1 : dayNumber t - dayFromYear (yearFromDay (dayNumber t))
      < 365 + inLeapDays (yearFromDay (dayNumber t)) := by omega
  obtain ⟨hm0, hm11, hms, hdd⟩ := monthFromDoy_spec
    (inLeapDays (yearFromDay (dayNumber t)))
    (dayNumber t - dayFromYear (yearFromDay (dayNumber t))) hilp hdoy0 hdoy1
  unfold dateComponentsFromTime
  dsimp only
  refine ⟨hb1, hb2, by omega, by omega, by omega, by omega, ?_⟩
  unfold dayNumber at *
  constructor
  · omega
  refine ⟨by omega, by omega, by omega, by omega, by omega, by omega, by omega⟩

/-- Round trip of the component decomposition: MakeDate of MakeDay and MakeTime of
the components of a time value gives the time value back. -/
theorem timeFromComponents_round (t : Int) :
    timeFromComponents (dateComponentsFromTime t) = t := by
  unfold timeFromComponents dateComponentsFromTime makeDate makeDay makeTime dayNumber
  dsimp only
  have hms : monthStart
      (inLeapDays (yearFromDay (t / 86400000)))
      (monthFromDoy (inLeapDays (yearFromDay (t / 86400000)))
        (t / 86400000 - dayFromYear (yearFromDay (t / 86400000))) + 1 - 1)
      = monthStart (inLeapDays (yearFromDay (t / 86400000)))
        (monthFromDoy (inLeapDays (yearFromDay (t / 86400000)))
          (t / 86400000 - dayFromYear (yearFromDay (t / 86400000)))) := by
    norm_num
  rw [hms]
  omega

/-- Parsing a rendered decimal digit gives the digit back. -/
theorem digitValue_digitChar (n : Nat) (h : n < 10) :
    digitValue (Nat.digitChar n) = some n := by
  interval_cases n <;> rfl

/-- The rendered digits all end in a mod-ten position. -/
theorem digitValue_digitChar_mod (k : Nat) :
    digitValue (Nat.digitChar (k % 10)) = some (k % 10) :=
  digitValue_digitChar _ (Nat.mod_lt _ (by norm_num))

/-- Parsing the rendered 24-character form recovers the components exactly. -/
theorem parseISOChars_render (c : DateComponents)
    (hy : 0 ≤ c.year ∧ c.year ≤ 9999) (hm : 1 ≤ c.month ∧ c.month ≤ 12)
    (hd : 1 ≤ c.day ∧ c.day ≤ 31) (hh : 0 ≤ c.hour ∧ c.hour ≤ 23)
    (hmi : 0 ≤ c.minute ∧ c.minute ≤ 59) (hs : 0 ≤ c.second ∧ c.second ≤ 59)
    (hml : 0 ≤ c.milli ∧ c.milli ≤ 999) :
    parseISOChars (renderComponents c) = some c := by
  obtain ⟨y, mo, da, ho, mi, se, ms⟩ := c
  simp only at hy hm hd hh hmi hs hml
  unfold renderComponents pad4 pad2 pad3
  simp only [List.cons_append, List.nil_append]
  unfold parseISOChars
  dsimp only
  rw [if_pos ⟨rfl, rfl, rfl, rfl, rfl, rfl, rfl⟩]
  simp only [digitValue_digitChar_mod]
  rw [if_pos (by omega)]
  simp only [Option.some.injEq, DateComponents.mk.injEq]
  omega

/-- Date.parse inverts toISOString exactly on the supported range. -/
theorem parseDate_toISOString (t : Int) (h : validTime t) :
    parseDate (toISOString t) = some t := by
  obtain ⟨h1, h2⟩ := h
  obtain ⟨b1, b2, b3, b4, b5, b6, b7, b8, b9, b10, b11, b12, b13, b14⟩ :=
    dateComponents_bounds t ⟨h1, h2⟩
  have hp := parseISOChars_render (dateComponentsFromTime t) ⟨b1, b2⟩ ⟨b3, b4⟩
    ⟨b5, b6⟩ ⟨b7, b8⟩ ⟨b9, b10⟩ ⟨b11, b12⟩ ⟨b13, b14⟩
  unfold parseDate toISOString
  rw [show (String.mk (renderComponents (dateComponentsFromTime t))).data
      = renderComponents (dateComponentsFromTime t) from rfl]
  rw [hp]
  dsimp only
  rw [timeFromComponents_round]
  rw [if_pos (by omega)]

/-- A serialized appointment element deserializes to its record: the spread keeps the
non-date fields and the two Date reads invert toISOString. -/
theorem elementToRaw_appointmentJson (a : Appointment)
    (hs : validTime a.start) (he : validTime a.endTime) :
    elementToRaw (appointmentJson a) = Except.ok (rawOfAppointment a) := by
  have h1 := parseDate_toISOString a.start hs
  have h2 := parseDate_toISOString a.endTime he
  cases hdesc : a.description with
  | none =>
    simp [elementToRaw, appointmentJson, rawOfAppointment, spreadFields, lookupField,
      dateOf, hdesc, h1, h2]
  | some d =>
    simp [elementToRaw, appointmentJson, rawOfAppointment, spreadFields, lookupField,
      dateOf, hdesc, h1, h2]

/-- Mapping deserialization over serialized elements succeeds elementwise. -/
theorem mapM_elementToRaw (l : List Appointment)
    (h : ∀ a ∈ l, validTime a.start ∧ validTime a.endTime) :
    (l.map appointmentJson).mapM elementToRaw
      = Except.ok (l.map rawOfAppointment) := by
  induction l with
  | nil => rfl
  | cons a tl ih =>
    simp only [List.map_cons, List.mapM_cons]
    rw [elementToRaw_appointmentJson a (h a (List.mem_cons_self a tl)).1
      (h a (List.mem_cons_self a tl)).2]
    rw [ih fun b hb => h b (List.mem_cons_of_mem a hb)]
    rfl

/-- Claim C8: serializing a collection of appointments with valid timestamps and
deserializing the result reproduces the records exactly, and in particular the
observable id, title, start, end, requesterName and type tuples are identical,
timestamps included. -/
theorem c8_serialize_deserialize_round_trip (l : List Appointment)
    (h : ∀ a ∈ l, validTime a.start ∧ validTime a.endTime) :
    deserialize (serialize l) = Except.ok (l.map rawOfAppointment) ∧
    (l.map rawOfAppointment).map rawTuple = l.map appointmentTuple := by
  constructor
  · unfold serialize deserialize
    exact mapM_elementToRaw l h
  · rw [List.map_map]
    apply List.map_congr_left
    intro a _
    show rawTuple (rawOfAppointment a) = appointmentTuple a
    cases hdesc : a.description <;>
      simp [rawTuple, rawOfAppointment, appointmentTuple, lookupField, hdesc]

/-- A concrete appointment with valid timestamps for the C8 witness. -/
def wC8 : Appointment :=
  { id := "a1", title := "Open Slot", start := 1700000000000,
    endTime := 1700001800000, requesterName := "Me",
    type := AppointmentType.availability }

/-- Witness for C8: the singleton collection round-trips exactly. -/
theorem c8_serialize_deserialize_round_trip_witness :
    deserialize (serialize [wC8]) = Except.ok ([wC8].map rawOfAppointment) ∧
    ([wC8].map rawOfAppointment).map rawTuple = [wC8].map appointmentTuple :=
  c8_serialize_deserialize_round_trip [wC8] (by decide)

/-- Counterexample to C9 as stated: the payload text of a one-element array holding
an empty object is not a well-formed serialized appointment collection (it is no
serialize image), yet loading it does not give the empty collection: it yields one
coerced record with no fields and Invalid Dates. -/
theorem c9_counterexample :
    (¬ ∃ l : List Appointment, serialize l = Json.arr [Json.obj []]) ∧
    getAppointments (StoredPayload.value (Json.arr [Json.obj []]))
      = [{ fields := [], start := none, endTime := none }] ∧
    getAppointments (StoredPayload.value (Json.arr [Json.obj []]))
      ≠ ([] : List RawAppointment) := by
  refine ⟨?_, rfl, fun hc => List.cons_ne_nil _ _ hc⟩
  rintro ⟨l, hl⟩
  cases l with
  | nil => simp [serialize] at hl
  | cons a tl =>
    simp only [serialize, List.map_cons] at hl
    injection hl with hl
    injection hl with h1 h2
    unfold appointmentJson at h1
    injection h1 with h1
    simp at h1

/-- Claim C9 as amended: the read path never throws; an absent key, a payload
JSON.parse rejects, and any payload on which deserialize throws (a non-array, or an
array holding null) all load as the empty collection. A payload parsing to an array
of non-null elements instead loads as a same-length collection of coerced records,
not necessarily empty. -/
theorem c9_read_path_fails_open :
    getAppointments StoredPayload.absent = [] ∧
    getAppointments StoredPayload.unparseable = [] ∧
    (∀ j : Json, deserialize j = Except.error () →
      getAppointments (StoredPayload.value j) = []) := by
  refine ⟨rfl, rfl, fun j hj => ?_⟩
  unfold getAppointments
  dsimp only
  rw [hj]

/-- Witness for C9 as amended: a non-array payload deserializes to the error and
loads as the empty collection. -/
theorem c9_read_path_fails_open_witness :
    deserialize Json.null = Except.error () ∧
    getAppointments (StoredPayload.value Json.null) = [] :=
  ⟨rfl, c9_read_path_fails_open.2.2 Json.null rfl⟩
